import Mathlib

/-!
Shallow embedding of the GEO scoring and projection engine of the
geo-scraper repository (src/analyzer/geo-auditor.ts and the
projection part of src/generators/tdmrep-json.ts), together with proofs
about the claims on its specification.

Modelling conventions:
- JavaScript numbers are modelled as exact rationals; `Math.round` is
  `jsRound q = ⌊q + 1/2⌋` (round half toward positive infinity, as in JS).
- `string | null` fields become `Option String`; JS truthiness of such a
  value ("null or empty string is falsy") is `strTruthy`.
- Text scanning (robots.txt directives, substring checks, the small
  regexes of the auditor) is implemented character-exactly over
  `String.data`; the regexes only use ASCII case folding, which
  `Char.toLower` provides.
- `new Date(s).getTime()` (an external library call) is passed in as an
  explicit parameter `parseDate : String → Option ℤ` (`none` models NaN),
  and `Date.now()` as `now : ℤ`, making the freshness evaluator a pure
  function of those inputs.
-/

namespace GeoScraper

/-- Priority tier of a finding (`'critical' | 'high' | 'medium' | 'low'`). -/
inductive Category : Type
  | critical
  | high
  | medium
  | low
deriving DecidableEq

/-- Status of a finding. `part` models the source's `'partial'`,
`na` models `'not_applicable'`. -/
inductive Status : Type
  | pass
  | part
  | fail
  | na
deriving DecidableEq

/-- `AuditItem` of geo-auditor.ts. -/
structure AuditItem : Type where
  name : String
  category : Category
  score : ℚ
  maxScore : ℚ
  status : Status
  details : String
  recommendation : String
deriving DecidableEq

/-- One `{ passed, total }` pair of the per-tier summary. -/
structure TierCount : Type where
  passed : ℕ
  total : ℕ
deriving DecidableEq

/-- The per-tier summary of an `AuditResult`. -/
structure AuditSummary : Type where
  critical : TierCount
  high : TierCount
  medium : TierCount
  low : TierCount
deriving DecidableEq

/-- `AuditResult` of geo-auditor.ts. -/
structure AuditResult : Type where
  overallScore : ℚ
  maxPossibleScore : ℚ
  grade : String
  items : List AuditItem
  summary : AuditSummary
deriving DecidableEq

/-- `Math.round` of JavaScript: round half toward positive infinity. -/
def jsRound (q : ℚ) : ℤ := ⌊q + 1/2⌋

/-- JS whitespace as matched by `\s` and trimmed by `String.prototype.trim`
(the ASCII part plus NBSP; the inputs of interest contain only these). -/
def jsWs (c : Char) : Bool :=
  c = ' ' || c = '\t' || c = '\n' || c = '\r' ||
  c = '\x0b' || c = '\x0c' || c = ' '

/-- `String.prototype.trim`. -/
def jsTrim (s : String) : String :=
  ⟨((s.data.dropWhile jsWs).reverse.dropWhile jsWs).reverse⟩

/-- `String.prototype.toLowerCase` (ASCII case folding suffices for the
crawler names and directive keywords compared here). -/
def strLower (s : String) : String := ⟨s.data.map Char.toLower⟩

/-- JS truthiness of a `string | null` value: `null` and `""` are falsy. -/
def strTruthy : Option String → Bool
  | none => false
  | some s => !s.data.isEmpty

/-- JS `x || y` on `string | null` values. -/
def strOr (a b : Option String) : Option String :=
  if strTruthy a then a else b

/-- `s.split('\n')`, as lists of characters. -/
def splitLinesAux : List Char → List Char → List (List Char)
  | [], acc => [acc.reverse]
  | c :: rest, acc =>
      if c = '\n' then acc.reverse :: splitLinesAux rest []
      else splitLinesAux rest (c :: acc)

/-- `s.split('\n')`. -/
def jsSplitLines (s : String) : List String :=
  (splitLinesAux s.data []).map fun l => ⟨l⟩

/-- `s.startsWith(pre)`. -/
def jsStartsWith (s pre : String) : Bool := pre.data.isPrefixOf s.data

/-- `s.includes(pat)` for a nonempty pattern. -/
def strIncludes (s pat : String) : Bool :=
  s.data.tails.any fun t => pat.data.isPrefixOf t

/-- Number of occurrences of `pat` in `s`, counting every start position
(`(s.match(/pat/g) || []).length`; the patterns used, `<loc>`, cannot
overlap themselves, so this equals the regex count). -/
def countOccur (s pat : String) : ℕ :=
  (s.data.tails.filter fun t => pat.data.isPrefixOf t).length

/-- Case-insensitive prefix match, returning the rest of the input after
the prefix (the `/.../i` regex anchors used by the robots.txt scanner). -/
def ciPrefix : List Char → List Char → Option (List Char)
  | [], l => some l
  | _ :: _, [] => none
  | p :: ps, c :: cs =>
      if p.toLower = c.toLower then ciPrefix ps cs else none

/-- `line.match(/^User-agent:\s*(.+)$/i)`, returning capture group 1.
Lines are trimmed before being matched, so the greedy `\s*` never has to
backtrack into trailing whitespace. -/
def matchAgent (line : String) : Option String :=
  match ciPrefix "User-agent:".data line.data with
  | none => none
  | some rest =>
      let r := rest.dropWhile jsWs
      if r.isEmpty then none else some ⟨r⟩

/-- `/^Disallow:\s*\/\s*$/i.test(line)`. -/
def isDisallowRoot (line : String) : Bool :=
  match ciPrefix "Disallow:".data line.data with
  | none => false
  | some rest =>
      match rest.dropWhile jsWs with
      | '/' :: r2 => (r2.dropWhile jsWs).isEmpty
      | _ => false

/-- `/^Allow:\s*\/\s*$/i.test(line)`. -/
def isAllowRoot (line : String) : Bool :=
  match ciPrefix "Allow:".data line.data with
  | none => false
  | some rest =>
      match rest.dropWhile jsWs with
      | '/' :: r2 => (r2.dropWhile jsWs).isEmpty
      | _ => false

/-- The fixed reference list of 13 AI crawlers of `auditAiBotBlocking`. -/
def aiCrawlers13 : List String :=
  ["GPTBot", "OAI-SearchBot", "ChatGPT-User", "ClaudeBot", "Claude-SearchBot",
   "Google-Extended", "Applebot-Extended", "Meta-ExternalAgent", "PerplexityBot",
   "Amazonbot", "CCBot", "DuckAssistBot", "Bytespider"]

/-- `hasExplicitAllow(robotsTxt, botName)` of geo-auditor.ts: scan the
(trimmed) lines; a `User-agent:` line enters/leaves the bot's block, an
`Allow: /` inside the block succeeds, any other non-comment non-blank
line leaves the block. -/
def hasExplicitAllowAux (bot : String) : List String → Bool → Bool
  | [], _ => false
  | line :: rest, inB =>
      match matchAgent line with
      | some a => hasExplicitAllowAux bot rest (strLower (jsTrim a) = strLower bot)
      | none =>
          if inB && isAllowRoot line then true
          else
            hasExplicitAllowAux bot rest
              (if !(jsStartsWith line "#") && line.data.length > 0 then false else inB)

/-- `hasExplicitAllow` of geo-auditor.ts. -/
def hasExplicitAllow (robotsTxt bot : String) : Bool :=
  hasExplicitAllowAux bot ((jsSplitLines robotsTxt).map jsTrim) false

/-- State of the robots.txt directive scan of `auditAiBotBlocking`:
the current run of `User-agent:` names, and the bots blocked so far. -/
structure ScanState : Type where
  agents : List String
  blocked : List String

/-- The bots that a `Disallow: /` blocks for the given agent names:
the wildcard blocks every reference crawler without an explicit
`Allow: /` in its own block; a named agent blocks its case-insensitive
match in the reference list. -/
def blockedForAgents (content : String) (agents : List String) : List String :=
  agents.flatMap fun agent =>
    if agent = "*" then
      aiCrawlers13.filter fun bot => !(hasExplicitAllow content bot)
    else
      match aiCrawlers13.find? (fun b => strLower b = strLower agent) with
      | some bot => [bot]
      | none => []

/-- One iteration of the `for (const line of lines)` loop of
`auditAiBotBlocking`: an agent line extends the current agent run;
otherwise a `Disallow: /` with a live agent run records blocked bots,
and then any non-comment, non-blank line clears the agent run. -/
def scanLine (content : String) (st : ScanState) (line : String) : ScanState :=
  match matchAgent line with
  | some cap => { st with agents := st.agents ++ [jsTrim cap] }
  | none =>
      let blocked :=
        if isDisallowRoot line && !st.agents.isEmpty then
          st.blocked ++ blockedForAgents content st.agents
        else st.blocked
      let agents :=
        if !(jsStartsWith line "#") && line.data.length > 0 then [] else st.agents
      { agents := agents, blocked := blocked }

/-- The `blockedBots` list accumulated by the scan of `auditAiBotBlocking`. -/
def blockedBots (content : String) : List String :=
  (((jsSplitLines content).map jsTrim).foldl (scanLine content) ⟨[], []⟩).blocked

/-- `[...new Set(blockedBots)].length`: the number of distinct blocked bots. -/
def uniqueBlockedCount (content : String) : ℕ := (blockedBots content).dedup.length

/-- `auditAiBotBlocking` of geo-auditor.ts. The `if (!content)` early
return is a JS falsiness test: the absent file and the empty string both
take it. -/
def auditAiBotBlocking (content : Option String) : AuditItem :=
  if !strTruthy content then
      { name := "AI Bot Blocking", category := .critical, score := 100,
        maxScore := 100, status := .pass,
        details := "No robots.txt found — AI bots are not blocked (but consider adding one with explicit Allow directives)",
        recommendation := "Add /robots.txt with explicit Allow directives for AI crawlers to signal openness" }
  else
      let c := content.getD ""
      let n := uniqueBlockedCount c
      if n = 0 then
        { name := "AI Bot Blocking", category := .critical, score := 100,
          maxScore := 100, status := .pass,
          details := "No AI crawlers are blocked in robots.txt",
          recommendation := "robots.txt does not block AI crawlers — good!" }
      else
        let blockedPct : ℚ := (n : ℚ) / (aiCrawlers13.length : ℚ)
        { name := "AI Bot Blocking", category := .critical,
          score := ((jsRound (max 0 ((1 - blockedPct) * 100)) : ℤ) : ℚ),
          maxScore := 100,
          status := if blockedPct > 1/2 then .fail else .part,
          details := toString n ++ "/13 AI crawlers are blocked",
          recommendation := "Remove Disallow directives for these AI crawlers to allow indexing. 5.9% of sites accidentally block GPTBot." }

/-- A heading extracted from a page (`HeadingNode`). -/
structure Heading : Type where
  level : ℕ
  text : String

/-- One FAQ question/answer pair (`FAQItem`). -/
structure FAQPair : Type where
  question : String
  answer : String

/-- Optional view of one untyped JSON-LD blob, restricted to the fields
the auditor reads: the `'@type'` string (when present as a string) and
the truthiness of `dateModified` / `datePublished`. -/
structure JsonLdItem : Type where
  attype : Option String
  hasDateModified : Bool
  hasDatePublished : Bool

/-- The subset of `PageMeta` the auditor reads. -/
structure PageMeta : Type where
  description : String
  canonical : Option String
  ogTitle : Option String
  ogDescription : Option String
  robots : Option String
  publishedDate : Option String
  modifiedDate : Option String
  googleVerification : Option String
  bingVerification : Option String

/-- The subset of `PageContent` the auditor reads. -/
structure PageContent : Type where
  headings : List Heading
  wordCount : ℕ
  faqItems : List FAQPair

/-- The subset of `PageData` the auditor reads. `responseHeaders` is the
header lookup (`Record<string, string>`, absent keys give `none`);
`jsonLd` is `existingStructuredData.jsonLd`. -/
structure PageData : Type where
  meta : PageMeta
  content : PageContent
  jsonLd : List JsonLdItem
  lastModified : Option String
  responseHeaders : String → Option String

/-- `ExistingGeoFiles`: each well-known policy file is either its text
or absent. -/
structure ExistingGeoFiles : Type where
  robotsTxt : Option String
  sitemapXml : Option String
  llmsTxt : Option String
  llmsFullTxt : Option String
  aiTxt : Option String
  aiJson : Option String
  securityTxt : Option String
  tdmrepJson : Option String
  humansTxt : Option String
  manifestJson : Option String
  bingSiteAuth : Option String

/-- The subset of `SiteCrawlResult` the auditor reads. -/
structure SiteCrawlResult : Type where
  pages : List PageData
  existingGeoFiles : ExistingGeoFiles

/-- `auditRobotsTxt` of geo-auditor.ts. The `if (!content)` early return
is a JS falsiness test: the absent file and the empty string both take it. -/
def auditRobotsTxt (content : Option String) : AuditItem :=
  if !strTruthy content then
      { name := "robots.txt", category := .critical, score := 0, maxScore := 100,
        status := .fail, details := "No robots.txt found",
        recommendation := "Add /robots.txt with explicit AI crawler directives (GPTBot, ClaudeBot, PerplexityBot, etc.)" }
  else
      let c := content.getD ""
      let aiCrawlers : List String :=
        ["GPTBot", "ClaudeBot", "Google-Extended", "PerplexityBot", "Applebot-Extended"]
      let mentioned := aiCrawlers.filter fun b => strIncludes c b
      if mentioned.length = 0 then
        { name := "robots.txt", category := .critical, score := 30, maxScore := 100,
          status := .part, details := "robots.txt exists but has no AI crawler directives",
          recommendation := "Add explicit directives for AI crawlers" }
      else
        let score : ℚ := min 100 (30 + ((mentioned.length : ℚ) / (aiCrawlers.length : ℚ)) * 70)
        { name := "robots.txt", category := .critical,
          score := ((jsRound score : ℤ) : ℚ), maxScore := 100,
          status := if mentioned.length ≥ 3 then .pass else .part,
          details := "robots.txt mentions " ++ toString mentioned.length ++ "/5 key AI crawlers",
          recommendation :=
            if mentioned.length < aiCrawlers.length then "Add directives for the missing AI crawlers"
            else "robots.txt has comprehensive AI crawler coverage" }

/-- `auditSitemap` of geo-auditor.ts. The `if (!content)` early return is
a JS falsiness test: the absent file and the empty string both take it. -/
def auditSitemap (content : Option String) (pageCount : ℕ) : AuditItem :=
  if !strTruthy content then
      { name := "sitemap.xml", category := .critical, score := 0, maxScore := 100,
        status := .fail, details := "No sitemap.xml found",
        recommendation := "Add /sitemap.xml with all discoverable URLs" }
  else
      let c := content.getD ""
      let urlCount := countOccur c "<loc>"
      let hasLastmod := strIncludes c "<lastmod>"
      let score : ℚ := 50 + (if urlCount > 0 then 25 else 0) + (if hasLastmod then 25 else 0)
      { name := "sitemap.xml", category := .critical, score := score, maxScore := 100,
        status := if score ≥ 75 then .pass else .part,
        details := "Sitemap contains " ++ toString urlCount ++ " URLs. Crawled " ++
          toString pageCount ++ " pages.",
        recommendation :=
          if !hasLastmod then "Add lastmod dates to sitemap entries for freshness signals"
          else "Sitemap is well-configured" }

/-- `/^# .+/m` holds on one line (the `.` of the regex matches any
character of the line, newlines being excluded by the line split). -/
def lineH1 : List Char → Bool
  | '#' :: ' ' :: _ :: _ => true
  | _ => false

/-- `/^> .+/m` holds on one line. -/
def lineBlockquote : List Char → Bool
  | '>' :: ' ' :: _ :: _ => true
  | _ => false

/-- `/^## .+/m` holds on one line. -/
def lineH2 : List Char → Bool
  | '#' :: '#' :: ' ' :: _ :: _ => true
  | _ => false

/-- Match `.+c` (one or more non-newline characters, then `c`) against a
prefix of the input, continuing with `next` on the rest; `seen` records
whether at least one character has been consumed. The disjunction makes
this the existence semantics of the backtracking regex engine. -/
def reDotPlusAux (stop : Char) (next : List Char → Bool) : List Char → Bool → Bool
  | [], _ => false
  | c :: rest, seen =>
      (seen && c = stop && next rest) || (c ≠ '\n' && reDotPlusAux stop next rest true)

/-- Match `\[.+\]\(.+\)` starting at the head of the input. -/
def linkFrom : List Char → Bool
  | '[' :: rest =>
      reDotPlusAux ']'
        (fun r =>
          match r with
          | '(' :: r2 => reDotPlusAux ')' (fun _ => true) r2 false
          | _ => false)
        rest false
  | _ => false

/-- `/\[.+\]\(.+\)/.test(s)`. -/
def hasMarkdownLink (s : String) : Bool := s.data.tails.any linkFrom

/-- `auditLlmsTxt` of geo-auditor.ts. The `if (!content)` early return is
a JS falsiness test: the absent file and the empty string both take it. -/
def auditLlmsTxt (content : Option String) : AuditItem :=
  if !strTruthy content then
      { name := "llms.txt", category := .critical, score := 0, maxScore := 100,
        status := .fail, details := "No llms.txt found",
        recommendation := "Add /llms.txt following the llmstxt.org spec: H1 site name, blockquote summary, H2 sections with link lists" }
  else
      let c := content.getD ""
      let lines := splitLinesAux c.data []
      let hasH1 := lines.any lineH1
      let hasBlockquote := lines.any lineBlockquote
      let hasH2 := lines.any lineH2
      let hasLinks := hasMarkdownLink c
      let score : ℚ := 40 + (if hasH1 then 15 else 0) + (if hasBlockquote then 15 else 0) +
        (if hasH2 then 15 else 0) + (if hasLinks then 15 else 0)
      { name := "llms.txt", category := .critical, score := score, maxScore := 100,
        status := if score ≥ 70 then .pass else .part,
        details := "llms.txt found",
        recommendation :=
          if score < 100 then "Ensure llms.txt has: H1 site name, summary blockquote, H2 sections with link lists"
          else "llms.txt follows the spec correctly" }

/-- `(item['@type'] as string) || 'unknown'`. -/
def jsonLdTypeName (it : JsonLdItem) : String :=
  match it.attype with
  | some t => if t.data.isEmpty then "unknown" else t
  | none => "unknown"

/-- `auditStructuredData` of geo-auditor.ts. The `Set` of schema types is
modelled by deduplicating the list of all type names. -/
def auditStructuredData (cr : SiteCrawlResult) : AuditItem :=
  let pages := cr.pages
  let pagesWithJsonLd := (pages.filter fun p => p.jsonLd.length > 0).length
  let totalJsonLdItems := (pages.map fun p => p.jsonLd.length).sum
  let schemaTypes := (pages.flatMap fun p => p.jsonLd.map jsonLdTypeName).dedup
  if totalJsonLdItems = 0 then
    { name := "Structured Data (JSON-LD)", category := .critical, score := 0, maxScore := 100,
      status := .fail, details := "No JSON-LD structured data found on any page",
      recommendation := "Add JSON-LD Schema.org markup: Organization on homepage, Article on blog posts, FAQPage on FAQ sections, Product on product pages" }
  else
    let coverage : ℚ := if pages.length > 0 then (pagesWithJsonLd : ℚ) / (pages.length : ℚ) else 0
    let hasOrganization := schemaTypes.contains "Organization"
    let hasWebSite := schemaTypes.contains "WebSite"
    let score : ℤ := min 50 (jsRound (coverage * 50)) + (if hasOrganization then (20 : ℤ) else 0) +
      (if hasWebSite then (15 : ℤ) else 0) + (if schemaTypes.length ≥ 3 then (15 : ℤ) else 0)
    { name := "Structured Data (JSON-LD)", category := .critical,
      score := ((min 100 score : ℤ) : ℚ), maxScore := 100,
      status := if score ≥ 60 then .pass else .part,
      details := toString pagesWithJsonLd ++ "/" ++ toString pages.length ++ " pages have JSON-LD",
      recommendation :=
        if !hasOrganization then "Add Organization schema to homepage for entity disambiguation"
        else if coverage < 1/2 then "Increase JSON-LD coverage — aim for structured data on every significant page"
        else "Good structured data coverage" }

/-- `auditServerRendering` of geo-auditor.ts. -/
def auditServerRendering (cr : SiteCrawlResult) : AuditItem :=
  let pages := cr.pages
  let ssrPages := (pages.filter fun p => p.content.wordCount > 50).length
  let coverage : ℚ := if pages.length > 0 then (ssrPages : ℚ) / (pages.length : ℚ) else 0
  { name := "Server-side Rendering", category := .critical,
    score := ((jsRound (coverage * 100) : ℤ) : ℚ), maxScore := 100,
    status := if coverage ≥ 4/5 then .pass else if coverage ≥ 1/2 then .part else .fail,
    details := toString ssrPages ++ "/" ++ toString pages.length ++ " pages have server-rendered content (>50 words without JS)",
    recommendation :=
      if coverage < 4/5 then "AI crawlers cannot execute JavaScript — ensure content is in initial HTML response via SSR/SSG"
      else "Content renders without JavaScript — good!" }

/-- `auditAiPolicy` of geo-auditor.ts. -/
def auditAiPolicy (aiTxt aiJson : Option String) : AuditItem :=
  let hasTxt := strTruthy aiTxt
  let hasJson := strTruthy aiJson
  if !hasTxt && !hasJson then
    { name := "AI Policy (ai.txt / ai.json)", category := .high, score := 0, maxScore := 100,
      status := .fail, details := "No ai.txt or ai.json found",
      recommendation := "Add /ai.txt and /ai.json to define AI interaction permissions, restrictions, and attribution requirements" }
  else
    { name := "AI Policy (ai.txt / ai.json)", category := .high,
      score := (if hasTxt then 50 else 0) + (if hasJson then 50 else 0), maxScore := 100,
      status := if hasTxt && hasJson then .pass else .part,
      details := "ai policy files checked",
      recommendation :=
        if !hasTxt then "Add /ai.txt for human-readable AI policy"
        else if !hasJson then "Add /ai.json for machine-parseable AI policy"
        else "Both AI policy files are present" }

/-- `auditMetaDescriptions` of geo-auditor.ts. -/
def auditMetaDescriptions (cr : SiteCrawlResult) : AuditItem :=
  let pages := cr.pages
  let withDescription := (pages.filter fun p =>
    !p.meta.description.data.isEmpty && p.meta.description.data.length ≥ 30).length
  let coverage : ℚ := if pages.length > 0 then (withDescription : ℚ) / (pages.length : ℚ) else 0
  { name := "Meta Descriptions", category := .high,
    score := ((jsRound (coverage * 100) : ℤ) : ℚ), maxScore := 100,
    status := if coverage ≥ 4/5 then .pass else if coverage ≥ 1/2 then .part else .fail,
    details := toString withDescription ++ "/" ++ toString pages.length ++ " pages have meta descriptions (>=30 chars)",
    recommendation :=
      if coverage < 4/5 then "Add meaningful meta descriptions to all pages — AI engines use these for summaries and citations"
      else "Good meta description coverage" }

/-- No heading level exceeds its predecessor by more than one
(the inner `for` loop of `auditHeadingHierarchy`). -/
def noHeadingSkips (hs : List Heading) : Bool :=
  (hs.zip hs.tail).all fun ab => !(ab.2.level > ab.1.level + 1)

/-- A page counts as having a correct hierarchy: it has headings, exactly
one of them is an H1, and no level is skipped. -/
def correctHeadingPage (p : PageData) : Bool :=
  !p.content.headings.isEmpty &&
  p.content.headings.any (fun h => h.level = 1) &&
  (p.content.headings.filter fun h => h.level = 1).length = 1 &&
  noHeadingSkips p.content.headings

/-- `auditHeadingHierarchy` of geo-auditor.ts. -/
def auditHeadingHierarchy (cr : SiteCrawlResult) : AuditItem :=
  let pages := cr.pages
  let correctHierarchy := (pages.filter correctHeadingPage).length
  let pagesWithHeadings := (pages.filter fun p => !p.content.headings.isEmpty).length
  let coverage : ℚ :=
    if pagesWithHeadings > 0 then (correctHierarchy : ℚ) / (pagesWithHeadings : ℚ) else 0
  { name := "Heading Hierarchy", category := .high,
    score := ((jsRound (coverage * 100) : ℤ) : ℚ), maxScore := 100,
    status := if coverage ≥ 4/5 then .pass else if coverage ≥ 1/2 then .part else .fail,
    details := toString correctHierarchy ++ "/" ++ toString pagesWithHeadings ++ " pages with headings have correct hierarchy",
    recommendation :=
      if coverage < 4/5 then "Fix heading hierarchy: single H1, no skipped levels. LLMs use headings to understand content structure."
      else "Heading hierarchy is clean" }

/-- `auditOpenGraph` of geo-auditor.ts. -/
def auditOpenGraph (cr : SiteCrawlResult) : AuditItem :=
  let pages := cr.pages
  let withOG := (pages.filter fun p => strTruthy p.meta.ogTitle && strTruthy p.meta.ogDescription).length
  let coverage : ℚ := if pages.length > 0 then (withOG : ℚ) / (pages.length : ℚ) else 0
  { name := "Open Graph Tags", category := .medium,
    score := ((jsRound (coverage * 100) : ℤ) : ℚ), maxScore := 100,
    status := if coverage ≥ 4/5 then .pass else if coverage ≥ 1/2 then .part else .fail,
    details := toString withOG ++ "/" ++ toString pages.length ++ " pages have OG title + description",
    recommendation :=
      if coverage < 4/5 then "Add og title and og description to all pages for rich previews in AI responses"
      else "Good Open Graph coverage" }

/-- The lowercased meta-robots value joined with the lowercased
`x-robots-tag` response header (`auditAiContentDirectives`). -/
def combinedRobots (p : PageData) : String :=
  strLower ((p.meta.robots).getD "") ++ " " ++ strLower ((p.responseHeaders "x-robots-tag").getD "")

/-- `auditAiContentDirectives` of geo-auditor.ts. -/
def auditAiContentDirectives (cr : SiteCrawlResult) : AuditItem :=
  let pages := cr.pages
  let withMaxSnippet := (pages.filter fun p => strIncludes (combinedRobots p) "max-snippet").length
  let withMaxImagePreview := (pages.filter fun p => strIncludes (combinedRobots p) "max-image-preview").length
  let hasDirectives := withMaxSnippet > 0 || withMaxImagePreview > 0
  let coverage : ℚ :=
    if pages.length > 0 then ((max withMaxSnippet withMaxImagePreview : ℕ) : ℚ) / (pages.length : ℚ) else 0
  let base : ℚ := (if withMaxSnippet > 0 then 50 else 0) + (if withMaxImagePreview > 0 then 50 else 0)
  let score : ℤ := jsRound (base * max coverage (if hasDirectives then 1/2 else 0))
  { name := "AI Content Directives", category := .medium,
    score := (score : ℚ), maxScore := 100,
    status := if score ≥ 60 then .pass else if score > 0 then .part else .fail,
    details :=
      if hasDirectives then "max-snippet / max-image-preview directives found"
      else "No max-snippet or max-image-preview directives found",
    recommendation :=
      if !hasDirectives then "Add a robots meta tag with max-snippet and max-image-preview to allow AI engines to use full content in responses"
      else if coverage < 4/5 then "Increase coverage of max-snippet and max-image-preview across all pages"
      else "AI content directives are well-configured" }

/-- `page.meta.modifiedDate || page.meta.publishedDate || page.lastModified`. -/
def pageDateStr (p : PageData) : Option String :=
  strOr (strOr p.meta.modifiedDate p.meta.publishedDate) p.lastModified

/-- A page counts as recently updated: it has a date signal whose parsed
timestamp is not NaN and lies within the trailing 365 days. -/
def pageIsRecent (now : ℤ) (parseDate : String → Option ℤ) (p : PageData) : Bool :=
  strTruthy (pageDateStr p) &&
  match parseDate ((pageDateStr p).getD "") with
  | some ts => now - ts < 365 * 24 * 60 * 60 * 1000
  | none => false

/-- `auditContentFreshness` of geo-auditor.ts, with `Date.now()` and
`new Date(s).getTime()` passed in explicitly. -/
def auditContentFreshness (now : ℤ) (parseDate : String → Option ℤ)
    (cr : SiteCrawlResult) : AuditItem :=
  let pages := cr.pages
  if pages.length = 0 then
    { name := "Content Freshness", category := .high, score := 0, maxScore := 100,
      status := .na, details := "No pages crawled",
      recommendation := "Crawl pages to assess content freshness" }
  else
    let pagesWithDate := (pages.filter fun p => strTruthy (pageDateStr p)).length
    let pagesRecent := (pages.filter (pageIsRecent now parseDate)).length
    let pagesWithJsonLdDate :=
      (pages.filter fun p => p.jsonLd.any fun ld => ld.hasDateModified || ld.hasDatePublished).length
    let dateCoverage : ℚ := (pagesWithDate : ℚ) / (pages.length : ℚ)
    let recencyFrac : ℚ := if pagesWithDate > 0 then (pagesRecent : ℚ) / (pagesWithDate : ℚ) else 0
    let jsonLdDateFrac : ℚ := if pages.length > 0 then (pagesWithJsonLdDate : ℚ) / (pages.length : ℚ) else 0
    let score : ℤ := min 100 (jsRound (dateCoverage * 50 + recencyFrac * 30 + jsonLdDateFrac * 20))
    { name := "Content Freshness", category := .high,
      score := (score : ℚ), maxScore := 100,
      status := if score ≥ 60 then .pass else if score > 0 then .part else .fail,
      details := toString pagesWithDate ++ "/" ++ toString pages.length ++ " pages have date signals",
      recommendation :=
        if score < 60 then "Add dateModified to JSON-LD and keep content updated — AI-cited content is 25.7% fresher than traditional results"
        else "Content freshness signals are strong" }

/-- `auditContentDepth` of geo-auditor.ts. -/
def auditContentDepth (cr : SiteCrawlResult) : AuditItem :=
  let pages := cr.pages
  if pages.length = 0 then
    { name := "Content Structure & Depth", category := .high, score := 0, maxScore := 100,
      status := .na, details := "No pages crawled",
      recommendation := "Crawl pages to assess content depth" }
  else
    let thinPages := (pages.filter fun p => p.content.wordCount < 300).length
    let substantivePages := (pages.filter fun p => p.content.wordCount > 500).length
    let wellStructured :=
      (pages.filter fun p => p.content.wordCount > 500 && p.content.headings.length ≥ 3).length
    let thinFrac : ℚ := (thinPages : ℚ) / (pages.length : ℚ)
    let depthFrac : ℚ := (substantivePages : ℚ) / (pages.length : ℚ)
    let structFrac : ℚ :=
      if substantivePages > 0 then (wellStructured : ℚ) / (substantivePages : ℚ) else 0
    let score : ℤ := min 100 (jsRound ((1 - thinFrac) * 30 + depthFrac * 40 + structFrac * 30))
    { name := "Content Structure & Depth", category := .high,
      score := (score : ℚ), maxScore := 100,
      status := if score ≥ 60 then .pass else if score > 0 then .part else .fail,
      details := toString substantivePages ++ "/" ++ toString pages.length ++ " pages >500 words",
      recommendation :=
        if score < 60 then "Add more substantive content (>500 words) with clear heading structure (>=3 headings). AI engines chunk content by paragraphs under headings."
        else "Content depth and structure are solid" }

/-- `auditSearchIndexing` of geo-auditor.ts. -/
def auditSearchIndexing (cr : SiteCrawlResult) : AuditItem :=
  let pages := cr.pages
  let hasGoogleVerification := pages.any fun p => strTruthy p.meta.googleVerification
  let hasBingMetaTag := pages.any fun p => strTruthy p.meta.bingVerification
  let hasBingSiteAuth := strTruthy cr.existingGeoFiles.bingSiteAuth
  let robotsTxt := (cr.existingGeoFiles.robotsTxt).getD ""
  let hasSitemapInRobots := (jsSplitLines robotsTxt).any fun l => (ciPrefix "Sitemap:".data l.data).isSome
  let noindexCount := (pages.filter fun p =>
    strIncludes (strLower ((p.meta.robots).getD "")) "noindex" ||
    strIncludes (strLower ((p.responseHeaders "x-robots-tag").getD "")) "noindex").length
  let pagesWithCanonical := (pages.filter fun p => strTruthy p.meta.canonical).length
  let canonicalCoverage : ℚ :=
    if pages.length > 0 then (pagesWithCanonical : ℚ) / (pages.length : ℚ) else 0
  let score : ℚ :=
    (if hasGoogleVerification then 20 else 0) +
    (if hasBingMetaTag || hasBingSiteAuth then 20 else 0) +
    (if hasSitemapInRobots then 20 else 0) +
    (if noindexCount = 0 then 20 else 0) +
    (if canonicalCoverage ≥ 4/5 then 20
     else if canonicalCoverage > 0 then ((jsRound (20 * canonicalCoverage) : ℤ) : ℚ) else 0)
  { name := "Search Engine Indexing", category := .critical,
    score := score, maxScore := 100,
    status := if score = 100 then .pass else if score ≥ 50 then .part else .fail,
    details := "search engine indexing signals checked",
    recommendation :=
      if score = 100 then "All search engine indexing signals are present — your site is well-configured for discovery"
      else if score ≥ 50 then "Partial indexing setup. Add the missing signals."
      else "Your site is likely not indexed by search engines. Set up Google Search Console and Bing Webmaster Tools, add a Sitemap directive to robots.txt, set canonical URLs, and remove any noindex tags" }

/-- `auditFAQContent` of geo-auditor.ts. -/
def auditFAQContent (cr : SiteCrawlResult) : AuditItem :=
  let pages := cr.pages
  let totalFAQs := (pages.map fun p => p.content.faqItems.length).sum
  let pagesWithFAQ := (pages.filter fun p => p.content.faqItems.length > 0).length
  let hasFAQPageSchema := pages.any fun p => p.jsonLd.any fun ld => ld.attype = some "FAQPage"
  if totalFAQs = 0 then
    { name := "FAQ Content", category := .low, score := 0, maxScore := 100,
      status := .fail, details := "No FAQ content detected on any page",
      recommendation := "Add FAQ sections to high-traffic pages. FAQPage schema has the highest AI citation probability." }
  else
    let score : ℕ := min 100 (min 60 (totalFAQs * 15) + (if hasFAQPageSchema then 40 else 0))
    { name := "FAQ Content", category := .low,
      score := (score : ℚ), maxScore := 100,
      status := if score ≥ 60 then .pass else .part,
      details := toString totalFAQs ++ " FAQ items on " ++ toString pagesWithFAQ ++ " pages",
      recommendation :=
        if !hasFAQPageSchema then "Add FAQPage JSON-LD schema markup alongside FAQ content for maximum AI citation rates"
        else if totalFAQs < 5 then "Add more FAQ content to additional high-traffic pages"
        else "FAQ content with schema markup detected — good!" }

/-- The inline `llms-full.txt` presence item of `auditSite`. -/
def llmsFullItem (file : Option String) : AuditItem :=
  { name := "llms-full.txt", category := .high,
    score := if strTruthy file then 100 else 0, maxScore := 100,
    status := if strTruthy file then .pass else .fail,
    details := if strTruthy file then "Found llms-full.txt" else "No llms-full.txt found",
    recommendation :=
      if strTruthy file then "llms-full.txt is present — good!"
      else "Add /llms-full.txt with complete site content in markdown for bulk LLM ingestion" }

/-- The inline `security.txt` presence item of `auditSite`. -/
def securityTxtItem (file : Option String) : AuditItem :=
  { name := "security.txt", category := .medium,
    score := if strTruthy file then 100 else 0, maxScore := 100,
    status := if strTruthy file then .pass else .fail,
    details :=
      if strTruthy file then "security.txt found at /.well-known/security.txt"
      else "No security.txt found",
    recommendation :=
      if strTruthy file then "RFC 9116 security.txt is present"
      else "Add /.well-known/security.txt per RFC 9116 with security contact info" }

/-- The inline `tdmrep.json` presence item of `auditSite`. -/
def tdmrepJsonItem (file : Option String) : AuditItem :=
  { name := "tdmrep.json", category := .medium,
    score := if strTruthy file then 100 else 0, maxScore := 100,
    status := if strTruthy file then .pass else .fail,
    details := if strTruthy file then "TDM reservation found" else "No TDM reservation found",
    recommendation :=
      if strTruthy file then "W3C TDM reservation is present"
      else "Add /.well-known/tdmrep.json to define text/data mining rights" }

/-- The inline `manifest.json` presence item of `auditSite`. -/
def manifestJsonItem (file : Option String) : AuditItem :=
  { name := "manifest.json", category := .medium,
    score := if strTruthy file then 100 else 0, maxScore := 100,
    status := if strTruthy file then .pass else .fail,
    details := if strTruthy file then "Web manifest found" else "No web manifest found",
    recommendation :=
      if strTruthy file then "Web manifest is present"
      else "Add manifest.json for site identity metadata" }

/-- The inline `humans.txt` presence item of `auditSite`. -/
def humansTxtItem (file : Option String) : AuditItem :=
  { name := "humans.txt", category := .low,
    score := if strTruthy file then 100 else 0, maxScore := 100,
    status := if strTruthy file then .pass else .fail,
    details := if strTruthy file then "humans.txt found" else "No humans.txt found",
    recommendation :=
      if strTruthy file then "humans.txt is present"
      else "Add /humans.txt for team and technology info" }

/-- The ordered finding list that `auditSite` pushes onto `items`. -/
def auditItemsOf (now : ℤ) (parseDate : String → Option ℤ)
    (cr : SiteCrawlResult) : List AuditItem :=
  [auditRobotsTxt cr.existingGeoFiles.robotsTxt,
   auditSitemap cr.existingGeoFiles.sitemapXml cr.pages.length,
   auditLlmsTxt cr.existingGeoFiles.llmsTxt,
   auditStructuredData cr,
   auditServerRendering cr,
   auditAiBotBlocking cr.existingGeoFiles.robotsTxt,
   auditSearchIndexing cr,
   llmsFullItem cr.existingGeoFiles.llmsFullTxt,
   auditAiPolicy cr.existingGeoFiles.aiTxt cr.existingGeoFiles.aiJson,
   auditMetaDescriptions cr,
   auditHeadingHierarchy cr,
   auditContentFreshness now parseDate cr,
   auditContentDepth cr,
   securityTxtItem cr.existingGeoFiles.securityTxt,
   tdmrepJsonItem cr.existingGeoFiles.tdmrepJson,
   auditOpenGraph cr,
   auditAiContentDirectives cr,
   manifestJsonItem cr.existingGeoFiles.manifestJson,
   humansTxtItem cr.existingGeoFiles.humansTxt,
   auditFAQContent cr]

/-- The tier weights of the aggregation loop of `auditSite`
(`{ critical: 3, high: 2, medium: 1, low: 0.5 }`). -/
def weights : Category → ℚ
  | .critical => 3
  | .high => 2
  | .medium => 1
  | .low => 1/2

/-- The `totalWeightedScore` / `totalWeightedMax` accumulation loop. -/
def auditTotals (items : List AuditItem) : ℚ × ℚ :=
  items.foldl
    (fun acc it => (acc.1 + it.score * weights it.category, acc.2 + it.maxScore * weights it.category))
    (0, 0)

/-- `overallScore = totalWeightedMax > 0 ? round(score/max*100) : 0`. -/
def overallScoreOf (items : List AuditItem) : ℚ :=
  let t := auditTotals items
  if t.2 > 0 then ((jsRound (t.1 / t.2 * 100) : ℤ) : ℚ) else 0

/-- One tier counter update: `total++`, and `passed++` when the status is
pass or partial. -/
def tierBump (t : TierCount) (ok : Bool) : TierCount :=
  { passed := t.passed + (if ok then 1 else 0), total := t.total + 1 }

/-- One iteration of the summary loop of `auditSite` (the identical loop
also appears verbatim in `generateProjectedAudit`). -/
def bumpTally (s : AuditSummary) (it : AuditItem) : AuditSummary :=
  let ok : Bool := decide (it.status = Status.pass ∨ it.status = Status.part)
  match it.category with
  | .critical => { s with critical := tierBump s.critical ok }
  | .high => { s with high := tierBump s.high ok }
  | .medium => { s with medium := tierBump s.medium ok }
  | .low => { s with low := tierBump s.low ok }

/-- The per-tier summary of a finding list. -/
def tallySummary (items : List AuditItem) : AuditSummary :=
  items.foldl bumpTally ⟨⟨0, 0⟩, ⟨0, 0⟩, ⟨0, 0⟩, ⟨0, 0⟩⟩

/-- `scoreToGrade` of geo-auditor.ts. -/
def scoreToGrade (score : ℚ) : String :=
  if score ≥ 90 then "A+"
  else if score ≥ 80 then "A"
  else if score ≥ 70 then "B"
  else if score ≥ 60 then "C"
  else if score ≥ 50 then "D"
  else "F"

/-- `auditSite` of geo-auditor.ts (with the freshness clock and date
parser passed in explicitly). -/
def auditSite (now : ℤ) (parseDate : String → Option ℤ)
    (cr : SiteCrawlResult) : AuditResult :=
  { overallScore := overallScoreOf (auditItemsOf now parseDate cr),
    maxPossibleScore := 100,
    grade := scoreToGrade (overallScoreOf (auditItemsOf now parseDate cr)),
    items := auditItemsOf now parseDate cr,
    summary := tallySummary (auditItemsOf now parseDate cr) }

/-- `PROJECTED_IMPROVEMENTS` of tdmrep-json.ts (the projection table):
finding name, target score, note. -/
def PROJECTED_IMPROVEMENTS : List (String × ℚ × String) :=
  [("robots.txt", 100, "AI crawler directives for 13 bots"),
   ("AI Bot Blocking", 100, "Explicit Allow directives for all AI crawlers"),
   ("sitemap.xml", 100, "Generated sitemap with all discovered URLs"),
   ("llms.txt", 100, "Site structure per llmstxt.org spec"),
   ("llms-full.txt", 100, "Full content dump for LLM ingestion"),
   ("AI Policy (ai.txt / ai.json)", 100, "Machine + human-readable AI policy"),
   ("security.txt", 100, "RFC 9116 security contact file"),
   ("tdmrep.json", 100, "Text & data mining rights reservation"),
   ("humans.txt", 100, "Team and technology credits"),
   ("manifest.json", 100, "Web app identity manifest"),
   ("Structured Data (JSON-LD)", 85, "Organization + WebSite schemas")]

/-- `PROJECTED_IMPROVEMENTS[item.name]` (record lookup by key). -/
def lookupImprovement (n : String) : Option (ℚ × String) :=
  (PROJECTED_IMPROVEMENTS.find? fun e => e.1 = n).map fun e => e.2

/-- The per-item body of the `before.items.map(...)` of
`generateProjectedAudit`. -/
def projectItem (it : AuditItem) : AuditItem :=
  match lookupImprovement it.name with
  | some (sc, note) =>
      if it.score < sc then
        { it with
          score := sc,
          status := if sc ≥ 70 then .pass else .part,
          details := note,
          recommendation := "Included in generated package" }
      else it
  | none => it

/-- The tier weights of `generateProjectedAudit`
(`{ critical: 3, high: 2, medium: 1, low: 0.5 }`; its `?? 1` default can
never fire since the tier is a closed enumeration). -/
def weightsProj : Category → ℚ
  | .critical => 3
  | .high => 2
  | .medium => 1
  | .low => 1/2

/-- The weighted-total accumulation loop of `generateProjectedAudit`
(verbatim the same loop as in geo-auditor.ts). -/
def projTotals (items : List AuditItem) : ℚ × ℚ :=
  items.foldl
    (fun acc it => (acc.1 + it.score * weightsProj it.category, acc.2 + it.maxScore * weightsProj it.category))
    (0, 0)

/-- The overall-score computation of `generateProjectedAudit`. -/
def overallScoreProjOf (items : List AuditItem) : ℚ :=
  let t := projTotals items
  if t.2 > 0 then ((jsRound (t.1 / t.2 * 100) : ℤ) : ℚ) else 0

/-- `scoreToGrade` of tdmrep-json.ts (a second, local copy of the grade
mapping). -/
def scoreToGradeProj (score : ℚ) : String :=
  if score ≥ 90 then "A+"
  else if score ≥ 80 then "A"
  else if score ≥ 70 then "B"
  else if score ≥ 60 then "C"
  else if score ≥ 50 then "D"
  else "F"

/-- `generateProjectedAudit` of tdmrep-json.ts. -/
def generateProjectedAudit (before : AuditResult) : AuditResult :=
  { overallScore := overallScoreProjOf (before.items.map projectItem),
    maxPossibleScore := 100,
    grade := scoreToGradeProj (overallScoreProjOf (before.items.map projectItem)),
    items := before.items.map projectItem,
    summary := tallySummary (before.items.map projectItem) }

/-- Modelled from the spec (§4.4): the grade step function as the
specification words it, `≥90→A+, ≥80→A, ≥70→B, ≥60→C, ≥50→D, else F`. -/
def scoreToGradeSpec (score : ℚ) : String :=
  if 90 ≤ score then "A+"
  else if 80 ≤ score then "A"
  else if 70 ≤ score then "B"
  else if 60 ≤ score then "C"
  else if 50 ≤ score then "D"
  else "F"

/-- Modelled from the spec (§4.5): the per-finding projection rule as the
specification words it — replace a finding exactly when its name is in the
table and its score is strictly below the target; the replacement takes
the table score, pass/partial status by the 70 threshold, the table note,
and the fixed recommendation; all other findings pass through unchanged. -/
def projectItemSpec (it : AuditItem) : AuditItem :=
  match PROJECTED_IMPROVEMENTS.find? fun e => e.1 = it.name with
  | some e =>
      if it.score < e.2.1 then
        { name := it.name, category := it.category, score := e.2.1, maxScore := it.maxScore,
          status := if e.2.1 ≥ 70 then .pass else .part,
          details := e.2.2, recommendation := "Included in generated package" }
      else it
  | none => it

/-- Modelled from the claim on the sitemap evaluator: 50 base for
existing, +25 for at least one URL entry, and +25 only when every entry
carries a last-modified date — read as: there are at least as many
`<lastmod>` tags as `<loc>` entries. -/
def sitemapScoreSpec (c : String) : ℚ :=
  50 + (if countOccur c "<loc>" > 0 then 25 else 0) +
    (if countOccur c "<loc>" ≤ countOccur c "<lastmod>" then 25 else 0)

/-- A crawl result with zero pages and no policy files. -/
def emptyCrawl : SiteCrawlResult :=
  { pages := [],
    existingGeoFiles :=
      { robotsTxt := none, sitemapXml := none, llmsTxt := none, llmsFullTxt := none,
        aiTxt := none, aiJson := none, securityTxt := none, tdmrepJson := none,
        humansTxt := none, manifestJson := none, bingSiteAuth := none } }

/-- An audit result with no findings (all recomputed fields degenerate). -/
def emptyAuditResult : AuditResult :=
  { overallScore := 0, maxPossibleScore := 100, grade := "F", items := [],
    summary := ⟨⟨0, 0⟩, ⟨0, 0⟩, ⟨0, 0⟩, ⟨0, 0⟩⟩ }

/-- The per-finding invariant of the data model: score within `[0, maxScore]`,
a fixed maximum of 100, and a well-formed status. -/
def itemOk (it : AuditItem) : Prop :=
  0 ≤ it.score ∧ it.score ≤ it.maxScore ∧ it.maxScore = 100 ∧
  (it.status = Status.pass ∨ it.status = Status.part ∨ it.status = Status.fail ∨
   it.status = Status.na)

theorem status_cases (s : Status) :
    s = Status.pass ∨ s = Status.part ∨ s = Status.fail ∨ s = Status.na := by
  cases s <;> simp

theorem eq_empty_of_data_eq_nil {c : String} (h : c.data = []) : c = "" := by
  cases c with
  | mk l =>
      have h' : l = [] := h
      subst h'
      rfl

theorem strTruthy_some {c : String} (h : c ≠ "") : strTruthy (some c) = true := by
  rw [strTruthy]
  cases hd : c.data with
  | nil => exact absurd (eq_empty_of_data_eq_nil hd) h
  | cons a l => rfl

theorem not_guard_of_ne_empty {c : String} (h : c ≠ "") :
    ¬((!strTruthy (some c)) = true) := by
  rw [strTruthy_some h]
  simp

theorem weights_pos (c : Category) : 0 < weights c := by
  cases c <;> norm_num [weights]

theorem weightsProj_pos (c : Category) : 0 < weightsProj c := by
  cases c <;> norm_num [weightsProj]

theorem jsRound_nonneg {q : ℚ} (h : 0 ≤ q) : 0 ≤ jsRound q := by
  rw [jsRound]
  exact Int.le_floor.mpr (by push_cast; linarith)

theorem floor_half_rat : ⌊(1 / 2 : ℚ)⌋ = 0 := by
  rw [Int.floor_eq_iff]
  norm_num

theorem jsRound_le {q : ℚ} {c : ℤ} (h : q ≤ (c : ℚ)) : jsRound q ≤ c := by
  rw [jsRound]
  calc ⌊q + 1 / 2⌋ ≤ ⌊(c : ℚ) + 1 / 2⌋ := Int.floor_le_floor (by linarith)
    _ = c := by rw [add_comm, Int.floor_add_int, floor_half_rat, zero_add]

theorem jsRoundQ_nonneg {q : ℚ} (h : 0 ≤ q) : (0 : ℚ) ≤ ((jsRound q : ℤ) : ℚ) := by
  exact_mod_cast jsRound_nonneg h

theorem jsRoundQ_le_100 {q : ℚ} (h : q ≤ 100) : ((jsRound q : ℤ) : ℚ) ≤ 100 := by
  exact_mod_cast jsRound_le (show q ≤ ((100 : ℤ) : ℚ) by exact_mod_cast h)

theorem ratio_nonneg (a b : ℕ) : (0 : ℚ) ≤ (a : ℚ) / (b : ℚ) := by positivity

theorem ratio_le_one {a b : ℕ} (h : a ≤ b) : (a : ℚ) / (b : ℚ) ≤ 1 := by
  rcases Nat.eq_zero_or_pos b with hb | hb
  · subst hb
    have : a = 0 := Nat.le_zero.mp h
    subst this
    norm_num
  · rw [div_le_one (by exact_mod_cast hb)]
    exact_mod_cast h

theorem cov01 {k n : ℕ} (h : k ≤ n) :
    0 ≤ (if n > 0 then (k : ℚ) / (n : ℚ) else 0) ∧
      (if n > 0 then (k : ℚ) / (n : ℚ) else 0) ≤ 1 := by
  split
  · exact ⟨ratio_nonneg k n, ratio_le_one h⟩
  · norm_num

theorem jsRoundQ_bounds_of_01 {cov : ℚ} (h0 : 0 ≤ cov) (h1 : cov ≤ 1) :
    0 ≤ ((jsRound (cov * 100) : ℤ) : ℚ) ∧ ((jsRound (cov * 100) : ℤ) : ℚ) ≤ 100 :=
  ⟨jsRoundQ_nonneg (by nlinarith), jsRoundQ_le_100 (by nlinarith)⟩

theorem length_filter_mono {α : Type} {p q : α → Bool}
    (h : ∀ a, p a = true → q a = true) (l : List α) :
    (l.filter p).length ≤ (l.filter q).length := by
  induction l with
  | nil => simp
  | cons x xs ih =>
      by_cases hp : p x = true
      · have hq := h x hp
        simp only [List.filter_cons, hp, hq, if_true, List.length_cons]
        omega
      · simp only [List.filter_cons, hp, if_false, Bool.false_eq_true]
        split
        · simp only [List.length_cons]; omega
        · exact ih

theorem jsRoundQ_le {q : ℚ} {c : ℤ} (h : q ≤ (c : ℚ)) :
    ((jsRound q : ℤ) : ℚ) ≤ (c : ℚ) := by
  exact_mod_cast jsRound_le h

theorem iteDiv_nonneg (P : Prop) [Decidable P] (a b : ℕ) :
    (0 : ℚ) ≤ if P then (a : ℚ) / (b : ℚ) else 0 := by
  split
  · exact ratio_nonneg a b
  · exact le_refl 0

theorem iteDiv_le_one (P : Prop) [Decidable P] {a b : ℕ} (h : a ≤ b) :
    (if P then (a : ℚ) / (b : ℚ) else 0) ≤ 1 := by
  split
  · exact ratio_le_one h
  · norm_num

theorem iteZ_bounds (P : Prop) [Decidable P] (a : ℤ) (ha : 0 ≤ a) :
    0 ≤ (if P then a else 0) ∧ (if P then a else 0) ≤ a := by
  split
  · omega
  · omega

theorem addIte2_bounds (P Q : Prop) [Decidable P] [Decidable Q] :
    (0 : ℚ) ≤ 50 + (if P then (25 : ℚ) else 0) + (if Q then (25 : ℚ) else 0) ∧
      50 + (if P then (25 : ℚ) else 0) + (if Q then (25 : ℚ) else 0) ≤ 100 := by
  split_ifs <;> norm_num

theorem addIte4_bounds (P Q R S : Prop)
    [Decidable P] [Decidable Q] [Decidable R] [Decidable S] :
    (0 : ℚ) ≤ 40 + (if P then (15 : ℚ) else 0) + (if Q then (15 : ℚ) else 0) +
        (if R then (15 : ℚ) else 0) + (if S then (15 : ℚ) else 0) ∧
      40 + (if P then (15 : ℚ) else 0) + (if Q then (15 : ℚ) else 0) +
        (if R then (15 : ℚ) else 0) + (if S then (15 : ℚ) else 0) ≤ 100 := by
  split_ifs <;> norm_num

theorem addIte50_bounds (P Q : Prop) [Decidable P] [Decidable Q] :
    (0 : ℚ) ≤ (if P then (50 : ℚ) else 0) + (if Q then (50 : ℚ) else 0) ∧
      (if P then (50 : ℚ) else 0) + (if Q then (50 : ℚ) else 0) ≤ 100 := by
  split_ifs <;> norm_num

theorem structScore_bounds (j B C D : ℤ) (hj : 0 ≤ j)
    (hB : 0 ≤ B) (hC : 0 ≤ C) (hD : 0 ≤ D) :
    (0 : ℚ) ≤ ((min 100 (min 50 j + B + C + D) : ℤ) : ℚ) ∧
      ((min 100 (min 50 j + B + C + D) : ℤ) : ℚ) ≤ 100 := by
  constructor
  · have : (0 : ℤ) ≤ min 100 (min 50 j + B + C + D) := by
      refine le_min (by norm_num) ?_
      have : (0 : ℤ) ≤ min 50 j := le_min (by norm_num) hj
      omega
    exact_mod_cast this
  · have : (min 100 (min 50 j + B + C + D) : ℤ) ≤ 100 := min_le_left _ _
    exact_mod_cast this

theorem min100Z_bounds (j : ℤ) (hj : 0 ≤ j) :
    (0 : ℚ) ≤ ((min 100 j : ℤ) : ℚ) ∧ ((min 100 j : ℤ) : ℚ) ≤ 100 := by
  constructor
  · have : (0 : ℤ) ≤ min 100 j := le_min (by norm_num) hj
    exact_mod_cast this
  · have : (min 100 j : ℤ) ≤ 100 := min_le_left _ _
    exact_mod_cast this

theorem auditRobotsTxt_ok (c : Option String) : itemOk (auditRobotsTxt c) := by
  rw [auditRobotsTxt]
  split
  · exact ⟨by norm_num, by norm_num, rfl, status_cases _⟩
  · dsimp only
    split
    · exact ⟨by norm_num, by norm_num, rfl, status_cases _⟩
    · refine ⟨?_, ?_, rfl, status_cases _⟩
      · exact jsRoundQ_nonneg (le_min (by norm_num) (by positivity))
      · simpa using jsRoundQ_le_100 (min_le_left _ _)

theorem auditSitemap_ok (c : Option String) (pc : ℕ) : itemOk (auditSitemap c pc) := by
  rw [auditSitemap]
  split
  · exact ⟨by norm_num, by norm_num, rfl, status_cases _⟩
  · exact ⟨(addIte2_bounds _ _).1, (addIte2_bounds _ _).2, rfl, status_cases _⟩

theorem auditLlmsTxt_ok (c : Option String) : itemOk (auditLlmsTxt c) := by
  rw [auditLlmsTxt]
  split
  · exact ⟨by norm_num, by norm_num, rfl, status_cases _⟩
  · exact ⟨(addIte4_bounds _ _ _ _).1, (addIte4_bounds _ _ _ _).2, rfl, status_cases _⟩

theorem auditStructuredData_ok (cr : SiteCrawlResult) : itemOk (auditStructuredData cr) := by
  rw [auditStructuredData]
  split
  · exact ⟨by norm_num, by norm_num, rfl, status_cases _⟩
  · have hj : (0 : ℤ) ≤ jsRound ((if cr.pages.length > 0 then
        ((cr.pages.filter fun p => decide (p.jsonLd.length > 0)).length : ℚ) /
          (cr.pages.length : ℚ) else 0) * 50) :=
      jsRound_nonneg (mul_nonneg (iteDiv_nonneg _ _ _) (by norm_num))
    refine ⟨?_, ?_, rfl, status_cases _⟩
    · exact (structScore_bounds _ _ _ _ hj
        (iteZ_bounds _ _ (by norm_num)).1 (iteZ_bounds _ _ (by norm_num)).1
        (iteZ_bounds _ _ (by norm_num)).1).1
    · exact (structScore_bounds _ _ _ _ hj
        (iteZ_bounds _ _ (by norm_num)).1 (iteZ_bounds _ _ (by norm_num)).1
        (iteZ_bounds _ _ (by norm_num)).1).2

theorem auditServerRendering_ok (cr : SiteCrawlResult) : itemOk (auditServerRendering cr) := by
  have h := jsRoundQ_bounds_of_01 (iteDiv_nonneg (cr.pages.length > 0)
    (cr.pages.filter fun p => decide (p.content.wordCount > 50)).length cr.pages.length)
    (iteDiv_le_one _ (List.length_filter_le _ cr.pages))
  exact ⟨h.1, h.2, rfl, status_cases _⟩

theorem auditAiBotBlocking_ok (c : Option String) : itemOk (auditAiBotBlocking c) := by
  rw [auditAiBotBlocking]
  split
  · exact ⟨by norm_num, by norm_num, rfl, status_cases _⟩
  · dsimp only
    split
    · exact ⟨by norm_num, by norm_num, rfl, status_cases _⟩
    · refine ⟨?_, ?_, rfl, status_cases _⟩
      · exact jsRoundQ_nonneg (le_max_left _ _)
      · refine jsRoundQ_le_100 (max_le (by norm_num) ?_)
        have h9 : (0 : ℚ) ≤ (uniqueBlockedCount (c.getD "") : ℚ) / (aiCrawlers13.length : ℚ) :=
          ratio_nonneg _ _
        nlinarith

theorem auditAiPolicy_ok (a b : Option String) : itemOk (auditAiPolicy a b) := by
  rw [auditAiPolicy]
  split
  · exact ⟨by norm_num, by norm_num, rfl, status_cases _⟩
  · exact ⟨(addIte50_bounds _ _).1, (addIte50_bounds _ _).2, rfl, status_cases _⟩

theorem auditMetaDescriptions_ok (cr : SiteCrawlResult) : itemOk (auditMetaDescriptions cr) := by
  have h := jsRoundQ_bounds_of_01 (iteDiv_nonneg (cr.pages.length > 0)
    (cr.pages.filter fun p =>
      !p.meta.description.data.isEmpty && p.meta.description.data.length ≥ 30).length
    cr.pages.length)
    (iteDiv_le_one _ (List.length_filter_le _ cr.pages))
  exact ⟨h.1, h.2, rfl, status_cases _⟩

theorem auditOpenGraph_ok (cr : SiteCrawlResult) : itemOk (auditOpenGraph cr) := by
  have h := jsRoundQ_bounds_of_01 (iteDiv_nonneg (cr.pages.length > 0)
    (cr.pages.filter fun p => strTruthy p.meta.ogTitle && strTruthy p.meta.ogDescription).length
    cr.pages.length)
    (iteDiv_le_one _ (List.length_filter_le _ cr.pages))
  exact ⟨h.1, h.2, rfl, status_cases _⟩

theorem auditHeadingHierarchy_ok (cr : SiteCrawlResult) : itemOk (auditHeadingHierarchy cr) := by
  have hmono : ((cr.pages.filter correctHeadingPage).length : ℕ) ≤
      (cr.pages.filter fun p => !p.content.headings.isEmpty).length := by
    refine length_filter_mono (fun p hp => ?_) cr.pages
    simp only [correctHeadingPage, Bool.and_eq_true] at hp
    exact hp.1.1.1
  have h := jsRoundQ_bounds_of_01
    (iteDiv_nonneg ((cr.pages.filter fun p => !p.content.headings.isEmpty).length > 0)
      (cr.pages.filter correctHeadingPage).length
      (cr.pages.filter fun p => !p.content.headings.isEmpty).length)
    (iteDiv_le_one _ hmono)
  exact ⟨h.1, h.2, rfl, status_cases _⟩

theorem natMin100_bounds (x : ℕ) :
    (0 : ℚ) ≤ ((min 100 x : ℕ) : ℚ) ∧ ((min 100 x : ℕ) : ℚ) ≤ 100 := by
  constructor
  · positivity
  · exact_mod_cast min_le_left 100 x

theorem iteQ100_bounds (P : Prop) [Decidable P] :
    (0 : ℚ) ≤ (if P then (100 : ℚ) else 0) ∧ (if P then (100 : ℚ) else 0) ≤ 100 := by
  split_ifs <;> norm_num

theorem prodScore_bounds {base m : ℚ} (hb0 : 0 ≤ base) (hb : base ≤ 100)
    (hm0 : 0 ≤ m) (hm : m ≤ 1) :
    (0 : ℚ) ≤ ((jsRound (base * m) : ℤ) : ℚ) ∧ ((jsRound (base * m) : ℤ) : ℚ) ≤ 100 :=
  ⟨jsRoundQ_nonneg (mul_nonneg hb0 hm0), jsRoundQ_le_100 (by nlinarith)⟩

theorem canonIte_bounds {cov : ℚ} (_h0 : 0 ≤ cov) (_h1 : cov ≤ 1) :
    0 ≤ (if cov ≥ 4/5 then (20 : ℚ) else if cov > 0 then ((jsRound (20 * cov) : ℤ) : ℚ) else 0) ∧
      (if cov ≥ 4/5 then (20 : ℚ) else if cov > 0 then ((jsRound (20 * cov) : ℤ) : ℚ) else 0) ≤ 20 := by
  split_ifs
  · norm_num
  · constructor
    · exact jsRoundQ_nonneg (by nlinarith)
    · have h := jsRound_le (q := 20 * cov) (c := 20) (by push_cast; nlinarith)
      calc ((jsRound (20 * cov) : ℤ) : ℚ) ≤ ((20 : ℤ) : ℚ) := by exact_mod_cast h
        _ = 20 := by norm_num
  · norm_num

theorem searchScore_bounds (P1 P2 P3 P4 : Prop)
    [Decidable P1] [Decidable P2] [Decidable P3] [Decidable P4]
    {e : ℚ} (he0 : 0 ≤ e) (he : e ≤ 20) :
    0 ≤ (if P1 then (20 : ℚ) else 0) + (if P2 then (20 : ℚ) else 0) +
        (if P3 then (20 : ℚ) else 0) + (if P4 then (20 : ℚ) else 0) + e ∧
      (if P1 then (20 : ℚ) else 0) + (if P2 then (20 : ℚ) else 0) +
        (if P3 then (20 : ℚ) else 0) + (if P4 then (20 : ℚ) else 0) + e ≤ 100 := by
  split_ifs <;> constructor <;> linarith

theorem iteHalf_le_one (P : Prop) [Decidable P] : (if P then (1 / 2 : ℚ) else 0) ≤ 1 := by
  split <;> norm_num

theorem auditAiContentDirectives_ok (cr : SiteCrawlResult) :
    itemOk (auditAiContentDirectives cr) := by
  have hmax : (max (cr.pages.filter fun p => strIncludes (combinedRobots p) "max-snippet").length
      (cr.pages.filter fun p => strIncludes (combinedRobots p) "max-image-preview").length : ℕ) ≤
      cr.pages.length :=
    max_le (List.length_filter_le _ cr.pages) (List.length_filter_le _ cr.pages)
  refine ⟨(prodScore_bounds (addIte50_bounds _ _).1 (addIte50_bounds _ _).2
      (le_trans (iteDiv_nonneg _ _ _) (le_max_left _ _))
      (max_le (iteDiv_le_one _ hmax) (iteHalf_le_one _))).1,
    (prodScore_bounds (addIte50_bounds _ _).1 (addIte50_bounds _ _).2
      (le_trans (iteDiv_nonneg _ _ _) (le_max_left _ _))
      (max_le (iteDiv_le_one _ hmax) (iteHalf_le_one _))).2, rfl, status_cases _⟩

theorem auditContentFreshness_ok (now : ℤ) (parseDate : String → Option ℤ)
    (cr : SiteCrawlResult) : itemOk (auditContentFreshness now parseDate cr) := by
  rw [auditContentFreshness]
  split
  · exact ⟨by norm_num, by norm_num, rfl, status_cases _⟩
  · have hσ : (0 : ℚ) ≤
        ((cr.pages.filter fun p => strTruthy (pageDateStr p)).length : ℚ) / (cr.pages.length : ℚ) * 50 +
        (if (cr.pages.filter fun p => strTruthy (pageDateStr p)).length > 0 then
          ((cr.pages.filter (pageIsRecent now parseDate)).length : ℚ) /
            ((cr.pages.filter fun p => strTruthy (pageDateStr p)).length : ℚ) else 0) * 30 +
        (if cr.pages.length > 0 then
          ((cr.pages.filter fun p =>
              p.jsonLd.any fun ld => ld.hasDateModified || ld.hasDatePublished).length : ℚ) /
            (cr.pages.length : ℚ) else 0) * 20 :=
      add_nonneg (add_nonneg (mul_nonneg (ratio_nonneg _ _) (by norm_num))
        (mul_nonneg (iteDiv_nonneg _ _ _) (by norm_num)))
        (mul_nonneg (iteDiv_nonneg _ _ _) (by norm_num))
    have h := min100Z_bounds _ (jsRound_nonneg hσ)
    exact ⟨h.1, h.2, rfl, status_cases _⟩

theorem auditContentDepth_ok (cr : SiteCrawlResult) : itemOk (auditContentDepth cr) := by
  rw [auditContentDepth]
  split
  · exact ⟨by norm_num, by norm_num, rfl, status_cases _⟩
  · have hσ : (0 : ℚ) ≤
        (1 - ((cr.pages.filter fun p => decide (p.content.wordCount < 300)).length : ℚ) /
          (cr.pages.length : ℚ)) * 30 +
        ((cr.pages.filter fun p => decide (p.content.wordCount > 500)).length : ℚ) /
          (cr.pages.length : ℚ) * 40 +
        (if (cr.pages.filter fun p => decide (p.content.wordCount > 500)).length > 0 then
          ((cr.pages.filter fun p =>
              p.content.wordCount > 500 && p.content.headings.length ≥ 3).length : ℚ) /
            ((cr.pages.filter fun p => decide (p.content.wordCount > 500)).length : ℚ) else 0) * 30 :=
      add_nonneg (add_nonneg
        (mul_nonneg (sub_nonneg.mpr (ratio_le_one (List.length_filter_le _ cr.pages))) (by norm_num))
        (mul_nonneg (ratio_nonneg _ _) (by norm_num)))
        (mul_nonneg (iteDiv_nonneg _ _ _) (by norm_num))
    have h := min100Z_bounds _ (jsRound_nonneg hσ)
    exact ⟨h.1, h.2, rfl, status_cases _⟩

theorem auditSearchIndexing_ok (cr : SiteCrawlResult) : itemOk (auditSearchIndexing cr) := by
  have hc := canonIte_bounds
    (iteDiv_nonneg (cr.pages.length > 0)
      (cr.pages.filter fun p => strTruthy p.meta.canonical).length cr.pages.length)
    (iteDiv_le_one (cr.pages.length > 0) (List.length_filter_le _ cr.pages))
  exact ⟨(searchScore_bounds _ _ _ _ hc.1 hc.2).1,
    (searchScore_bounds _ _ _ _ hc.1 hc.2).2, rfl, status_cases _⟩

theorem auditFAQContent_ok (cr : SiteCrawlResult) : itemOk (auditFAQContent cr) := by
  rw [auditFAQContent]
  split
  · exact ⟨by norm_num, by norm_num, rfl, status_cases _⟩
  · exact ⟨(natMin100_bounds _).1, (natMin100_bounds _).2, rfl, status_cases _⟩

theorem llmsFullItem_ok (f : Option String) : itemOk (llmsFullItem f) :=
  ⟨(iteQ100_bounds _).1, (iteQ100_bounds _).2, rfl, status_cases _⟩

theorem securityTxtItem_ok (f : Option String) : itemOk (securityTxtItem f) :=
  ⟨(iteQ100_bounds _).1, (iteQ100_bounds _).2, rfl, status_cases _⟩

theorem tdmrepJsonItem_ok (f : Option String) : itemOk (tdmrepJsonItem f) :=
  ⟨(iteQ100_bounds _).1, (iteQ100_bounds _).2, rfl, status_cases _⟩

theorem manifestJsonItem_ok (f : Option String) : itemOk (manifestJsonItem f) :=
  ⟨(iteQ100_bounds _).1, (iteQ100_bounds _).2, rfl, status_cases _⟩

theorem humansTxtItem_ok (f : Option String) : itemOk (humansTxtItem f) :=
  ⟨(iteQ100_bounds _).1, (iteQ100_bounds _).2, rfl, status_cases _⟩

theorem auditItemsOf_ok (now : ℤ) (parseDate : String → Option ℤ) (cr : SiteCrawlResult) :
    ∀ it ∈ auditItemsOf now parseDate cr, itemOk it := by
  intro it hit
  simp only [auditItemsOf, List.mem_cons, List.not_mem_nil, or_false] at hit
  rcases hit with rfl | rfl | rfl | rfl | rfl | rfl | rfl | rfl | rfl | rfl | rfl | rfl | rfl |
    rfl | rfl | rfl | rfl | rfl | rfl | rfl
  · exact auditRobotsTxt_ok _
  · exact auditSitemap_ok _ _
  · exact auditLlmsTxt_ok _
  · exact auditStructuredData_ok _
  · exact auditServerRendering_ok _
  · exact auditAiBotBlocking_ok _
  · exact auditSearchIndexing_ok _
  · exact llmsFullItem_ok _
  · exact auditAiPolicy_ok _ _
  · exact auditMetaDescriptions_ok _
  · exact auditHeadingHierarchy_ok _
  · exact auditContentFreshness_ok _ _ _
  · exact auditContentDepth_ok _
  · exact securityTxtItem_ok _
  · exact tdmrepJsonItem_ok _
  · exact auditOpenGraph_ok _
  · exact auditAiContentDirectives_ok _
  · exact manifestJsonItem_ok _
  · exact humansTxtItem_ok _
  · exact auditFAQContent_ok _

theorem totals_foldl (f g : AuditItem → ℚ) (items : List AuditItem) (a b : ℚ) :
    items.foldl (fun acc it => (acc.1 + f it, acc.2 + g it)) (a, b) =
      (a + (items.map f).sum, b + (items.map g).sum) := by
  induction items generalizing a b with
  | nil => simp
  | cons x xs ih =>
      simp only [List.foldl_cons, List.map_cons, List.sum_cons, ih]
      refine Prod.ext ?_ ?_ <;> dsimp only <;> ring

theorem auditTotals_eq (items : List AuditItem) :
    auditTotals items = ((items.map fun it => it.score * weights it.category).sum,
      (items.map fun it => it.maxScore * weights it.category).sum) := by
  rw [auditTotals]
  simpa using totals_foldl (fun it => it.score * weights it.category)
    (fun it => it.maxScore * weights it.category) items 0 0

theorem projTotals_eq (items : List AuditItem) :
    projTotals items = ((items.map fun it => it.score * weightsProj it.category).sum,
      (items.map fun it => it.maxScore * weightsProj it.category).sum) := by
  rw [projTotals]
  simpa using totals_foldl (fun it => it.score * weightsProj it.category)
    (fun it => it.maxScore * weightsProj it.category) items 0 0

theorem overallScoreOf_eq (items : List AuditItem) :
    overallScoreOf items =
      if (items.map fun it => it.maxScore * weights it.category).sum > 0
      then ((jsRound ((items.map fun it => it.score * weights it.category).sum /
        (items.map fun it => it.maxScore * weights it.category).sum * 100) : ℤ) : ℚ)
      else 0 := by
  rw [overallScoreOf, auditTotals_eq]

theorem overallScoreProjOf_eq (items : List AuditItem) :
    overallScoreProjOf items =
      if (items.map fun it => it.maxScore * weightsProj it.category).sum > 0
      then ((jsRound ((items.map fun it => it.score * weightsProj it.category).sum /
        (items.map fun it => it.maxScore * weightsProj it.category).sum * 100) : ℤ) : ℚ)
      else 0 := by
  rw [overallScoreProjOf, projTotals_eq]

theorem projectItem_maxScore (it : AuditItem) : (projectItem it).maxScore = it.maxScore := by
  rw [projectItem]
  cases h : lookupImprovement it.name with
  | none => rfl
  | some v =>
      obtain ⟨sc, note⟩ := v
      dsimp only
      split <;> rfl

theorem den_nonneg {items : List AuditItem} (w : Category → ℚ) (hw : ∀ c, 0 < w c)
    (h : ∀ it ∈ items, 0 ≤ it.maxScore) :
    0 ≤ (items.map fun it => it.maxScore * w it.category).sum := by
  apply List.sum_nonneg
  intro y hy
  obtain ⟨it, hit, rfl⟩ := List.mem_map.mp hy
  exact mul_nonneg (h it hit) (hw it.category).le

theorem den_pos_of {items : List AuditItem} (h : ∀ it ∈ items, it.maxScore = 100)
    (hne : items ≠ []) :
    0 < (items.map fun it => it.maxScore * weights it.category).sum := by
  apply List.sum_pos
  · intro y hy
    obtain ⟨it, hit, rfl⟩ := List.mem_map.mp hy
    rw [h it hit]
    exact mul_pos (by norm_num) (weights_pos it.category)
  · intro hmap
    exact hne (List.map_eq_nil_iff.mp hmap)

/-- C1: the overall score computed by `auditSite`, and likewise the one
re-derived by `generateProjectedAudit` from the projected findings, equals
`round(Σ score·weight / Σ maxScore·weight × 100)` with tier weights
critical 3, high 2, medium 1, low 0.5, and equals 0 when the weighted
maximum sum is 0. -/
theorem geoAuditC1 (now : ℤ) (parseDate : String → Option ℤ) (cr : SiteCrawlResult)
    (a : AuditResult) (ha : ∀ it ∈ a.items, 0 ≤ it.maxScore) :
    ((auditSite now parseDate cr).overallScore =
      if ((auditSite now parseDate cr).items.map fun it => it.maxScore * weights it.category).sum = 0
      then 0
      else ((jsRound ((((auditSite now parseDate cr).items.map fun it => it.score * weights it.category).sum /
        ((auditSite now parseDate cr).items.map fun it => it.maxScore * weights it.category).sum) * 100) : ℤ) : ℚ)) ∧
    ((generateProjectedAudit a).overallScore =
      if ((generateProjectedAudit a).items.map fun it => it.maxScore * weightsProj it.category).sum = 0
      then 0
      else ((jsRound ((((generateProjectedAudit a).items.map fun it => it.score * weightsProj it.category).sum /
        ((generateProjectedAudit a).items.map fun it => it.maxScore * weightsProj it.category).sum) * 100) : ℤ) : ℚ)) := by
  constructor
  · simp only [auditSite]
    rw [overallScoreOf_eq]
    have hms : ∀ it ∈ auditItemsOf now parseDate cr, it.maxScore = 100 := fun it hit =>
      (auditItemsOf_ok now parseDate cr it hit).2.2.1
    have hpos := den_pos_of hms (by rw [auditItemsOf]; exact List.cons_ne_nil _ _)
    rw [if_pos hpos, if_neg (ne_of_gt hpos)]
  · simp only [generateProjectedAudit]
    rw [overallScoreProjOf_eq]
    have hms0 : ∀ it ∈ a.items.map projectItem, 0 ≤ it.maxScore := by
      intro it hit
      obtain ⟨x, hx, rfl⟩ := List.mem_map.mp hit
      rw [projectItem_maxScore]
      exact ha x hx
    have hd := den_nonneg weightsProj weightsProj_pos hms0
    rcases lt_or_eq_of_le hd with hpos | heq
    · rw [if_pos hpos, if_neg (ne_of_gt hpos)]
    · rw [if_neg (by rw [← heq]; exact lt_irrefl 0), if_pos heq.symm]

theorem geoAuditC1_witness :
    (∀ it ∈ emptyAuditResult.items, 0 ≤ it.maxScore) ∧
    (((auditSite 0 (fun _ => none) emptyCrawl).overallScore =
      if ((auditSite 0 (fun _ => none) emptyCrawl).items.map fun it => it.maxScore * weights it.category).sum = 0
      then 0
      else ((jsRound ((((auditSite 0 (fun _ => none) emptyCrawl).items.map fun it => it.score * weights it.category).sum /
        ((auditSite 0 (fun _ => none) emptyCrawl).items.map fun it => it.maxScore * weights it.category).sum) * 100) : ℤ) : ℚ)) ∧
    ((generateProjectedAudit emptyAuditResult).overallScore =
      if ((generateProjectedAudit emptyAuditResult).items.map fun it => it.maxScore * weightsProj it.category).sum = 0
      then 0
      else ((jsRound ((((generateProjectedAudit emptyAuditResult).items.map fun it => it.score * weightsProj it.category).sum /
        ((generateProjectedAudit emptyAuditResult).items.map fun it => it.maxScore * weightsProj it.category).sum) * 100) : ℤ) : ℚ))) :=
  ⟨by simp [emptyAuditResult],
   geoAuditC1 0 (fun _ => none) emptyCrawl emptyAuditResult (by simp [emptyAuditResult])⟩

/-- C5: every finding produced by `auditSite` satisfies
`0 ≤ score ≤ maxScore = 100` and carries one of the four statuses;
this covers each evaluator individually since `auditSite` appends the
output of every one of them. -/
theorem geoAuditC5 (now : ℤ) (parseDate : String → Option ℤ) (cr : SiteCrawlResult) :
    ∀ it ∈ (auditSite now parseDate cr).items,
      0 ≤ it.score ∧ it.score ≤ it.maxScore ∧ it.maxScore = 100 ∧
      (it.status = Status.pass ∨ it.status = Status.part ∨ it.status = Status.fail ∨
       it.status = Status.na) := by
  intro it hit
  exact auditItemsOf_ok now parseDate cr it hit

theorem geoAuditC5_witness :
    (auditRobotsTxt none ∈ (auditSite 0 (fun _ => none) emptyCrawl).items) ∧
    (0 ≤ (auditRobotsTxt none).score ∧
     (auditRobotsTxt none).score ≤ (auditRobotsTxt none).maxScore ∧
     (auditRobotsTxt none).maxScore = 100 ∧
     ((auditRobotsTxt none).status = Status.pass ∨ (auditRobotsTxt none).status = Status.part ∨
      (auditRobotsTxt none).status = Status.fail ∨ (auditRobotsTxt none).status = Status.na)) :=
  ⟨List.Mem.head _,
   geoAuditC5 0 (fun _ => none) emptyCrawl (auditRobotsTxt none) (List.Mem.head _)⟩

/-- C4: the grade mapping of the Aggregator (geo-auditor.ts) and the one of
the ProjectionSimulator (tdmrep-json.ts) are extensionally equal, both
equal the specified step function (≥90 A+, ≥80 A, ≥70 B, ≥60 C, ≥50 D,
else F), and in every audit result either function produces, the grade
field is that step function applied to the overall score. -/
theorem geoAuditC4 :
    (∀ s : ℚ, scoreToGrade s = scoreToGradeProj s) ∧
    (∀ s : ℚ, scoreToGrade s = scoreToGradeSpec s) ∧
    (∀ (now : ℤ) (parseDate : String → Option ℤ) (cr : SiteCrawlResult),
      (auditSite now parseDate cr).grade = scoreToGrade (auditSite now parseDate cr).overallScore) ∧
    (∀ a : AuditResult,
      (generateProjectedAudit a).grade = scoreToGrade (generateProjectedAudit a).overallScore) :=
  ⟨fun _ => rfl, fun _ => rfl, fun _ _ _ => rfl, fun _ => rfl⟩

/-- C2: `generateProjectedAudit` replaces a finding exactly when its name
is in the static table and its score is strictly below the target, and
then with the table score, pass/partial by the 70 threshold, the table
note and the fixed recommendation; every other finding passes through
unchanged. (`projectItemSpec` is that rule transcribed from the spec.) -/
theorem geoAuditC2 :
    (∀ it : AuditItem, projectItem it = projectItemSpec it) ∧
    (∀ a : AuditResult, (generateProjectedAudit a).items = a.items.map projectItemSpec) := by
  have h : ∀ it, projectItem it = projectItemSpec it := by
    intro it
    rw [projectItem, projectItemSpec, lookupImprovement]
    cases hf : PROJECTED_IMPROVEMENTS.find? fun e => e.1 = it.name with
    | none => rfl
    | some e => rfl
  refine ⟨h, fun a => ?_⟩
  simp only [generateProjectedAudit]
  exact List.map_congr_left fun it _ => h it

/-- C3: the projection never lowers any individual finding's score — each
projected finding scores at least its pre-projection counterpart. -/
theorem geoAuditC3 (a : AuditResult) :
    List.Forall₂ (fun bef aft => bef.score ≤ aft.score)
      a.items (generateProjectedAudit a).items := by
  simp only [generateProjectedAudit]
  rw [List.forall₂_map_right_iff, List.forall₂_same]
  intro it _
  rw [projectItem]
  cases hf : lookupImprovement it.name with
  | none => exact le_refl _
  | some v =>
      obtain ⟨sc, note⟩ := v
      dsimp only
      split
      · next hlt => exact le_of_lt hlt
      · exact le_refl _

theorem projectItem_idem (it : AuditItem) : projectItem (projectItem it) = projectItem it := by
  rcases hf : lookupImprovement it.name with _ | ⟨sc, note⟩
  · have h1 : projectItem it = it := by rw [projectItem, hf]
    rw [h1, h1]
  · by_cases hlt : it.score < sc
    · have h1 : projectItem it =
          AuditItem.mk it.name it.category sc it.maxScore
            (if sc ≥ 70 then Status.pass else Status.part) note
            "Included in generated package" := by
        rw [projectItem, hf]
        dsimp only
        rw [if_pos hlt]
      rw [h1]
      rw [projectItem]
      dsimp only
      rw [hf]
      dsimp only
      rw [if_neg (lt_irrefl sc)]
    · have h1 : projectItem it = it := by
        rw [projectItem, hf]
        dsimp only
        rw [if_neg hlt]
      rw [h1, h1]

/-- C9: the projection is idempotent — projecting an already projected
audit changes nothing: every table-listed finding is already at or above
its target, so the second pass carries everything through and re-derives
the identical overall score, grade and summary. -/
theorem geoAuditC9 (a : AuditResult) :
    generateProjectedAudit (generateProjectedAudit a) = generateProjectedAudit a := by
  have hmap : (a.items.map projectItem).map projectItem = a.items.map projectItem := by
    rw [List.map_map]
    exact List.map_congr_left fun it _ => projectItem_idem it
  simp only [generateProjectedAudit]
  rw [hmap]

theorem jsRound_100 : jsRound (100 : ℚ) = 100 := by
  rw [jsRound, Int.floor_eq_iff]
  norm_num

theorem jsRound_zero : jsRound (0 : ℚ) = 0 := by
  rw [jsRound, zero_add]
  exact floor_half_rat

theorem aiCrawlers13_len : ((aiCrawlers13.length : ℕ) : ℚ) = 13 := by
  rw [show aiCrawlers13.length = 13 from rfl]
  norm_num

/-- C6: the AI Bot Blocking evaluator scores 100/pass for an absent
robots.txt; for a present one it scores
`round(max(0, (1 − blocked/13) × 100))` over the distinct blocked
crawlers of the 13-name reference list, with status fail when more than
half are blocked, pass exactly when none are, and partial otherwise. -/
theorem geoAuditC6 :
    ((auditAiBotBlocking none).score = 100 ∧ (auditAiBotBlocking none).status = Status.pass) ∧
    ∀ c : String,
      ((auditAiBotBlocking (some c)).score =
        ((jsRound (max 0 ((1 - (uniqueBlockedCount c : ℚ) / 13) * 100)) : ℤ) : ℚ)) ∧
      ((auditAiBotBlocking (some c)).status =
        if uniqueBlockedCount c = 0 then Status.pass
        else if (uniqueBlockedCount c : ℚ) / 13 > 1/2 then Status.fail
        else Status.part) := by
  refine ⟨⟨rfl, rfl⟩, fun c => ?_⟩
  by_cases hc : c = ""
  · subst hc
    have h0 : uniqueBlockedCount "" = 0 := by decide
    constructor
    · show (100 : ℚ) = _
      rw [h0]
      rw [show ((1 : ℚ) - ((0 : ℕ) : ℚ) / 13) * 100 = 100 by norm_num]
      rw [max_eq_right (by norm_num : (0 : ℚ) ≤ 100), jsRound_100]
      norm_num
    · show Status.pass = _
      rw [if_pos h0]
  · rw [auditAiBotBlocking, if_neg (not_guard_of_ne_empty hc)]
    simp only [Option.getD_some]
    by_cases h : uniqueBlockedCount c = 0
    · rw [if_pos h]
      constructor
      · show (100 : ℚ) = _
        rw [h]
        rw [show ((1 : ℚ) - ((0 : ℕ) : ℚ) / 13) * 100 = 100 by norm_num]
        rw [max_eq_right (by norm_num : (0 : ℚ) ≤ 100), jsRound_100]
        norm_num
      · show Status.pass = _
        rw [if_pos h]
    · rw [if_neg h, aiCrawlers13_len]
      exact ⟨rfl, by rw [if_neg h]⟩

/-- C10: in the directive scan of `auditAiBotBlocking`, every non-agent,
non-comment, non-blank line — a `Disallow` line included — clears the
current user-agent set after being processed, and with an empty agent set
no line can add blocked bots; hence a block whose `Disallow: /` is
preceded by another directive line blocks nothing, and the concrete
robots.txt `User-agent: GPTBot\nDisallow: /private\nDisallow: /` scores
100 with status pass. -/
theorem geoAuditC10 :
    (∀ (content line : String) (st : ScanState),
        matchAgent line = none → jsStartsWith line "#" = false → line.data.length > 0 →
        (scanLine content st line).agents = []) ∧
    (∀ (content : String) (b : List String) (line : String),
        (scanLine content ⟨[], b⟩ line).blocked = b) ∧
    ((auditAiBotBlocking (some "User-agent: GPTBot\nDisallow: /private\nDisallow: /")).score = 100 ∧
     (auditAiBotBlocking (some "User-agent: GPTBot\nDisallow: /private\nDisallow: /")).status =
       Status.pass) := by
  refine ⟨?_, ?_, ?_⟩
  · intro content line st hm hh hl
    have hl' : line.length > 0 := hl
    rw [scanLine, hm]
    simp [hh, hl, hl']
  · intro content b line
    rw [scanLine]
    cases hm : matchAgent line with
    | some cap => rfl
    | none => simp
  · have h : uniqueBlockedCount "User-agent: GPTBot\nDisallow: /private\nDisallow: /" = 0 := by
      decide
    rw [auditAiBotBlocking, if_neg (by decide)]
    simp only [Option.getD_some]
    rw [if_pos h]
    exact ⟨rfl, rfl⟩

theorem geoAuditC10_witness :
    (matchAgent "Disallow: /" = none ∧ jsStartsWith "Disallow: /" "#" = false ∧
     "Disallow: /".data.length > 0) ∧
    (scanLine "" ⟨["GPTBot"], []⟩ "Disallow: /").agents = [] :=
  ⟨⟨by decide, by decide, by decide⟩,
   geoAuditC10.1 "" "Disallow: /" ⟨["GPTBot"], []⟩ (by decide) (by decide) (by decide)⟩

theorem geoAuditC7_counterexample :
    (auditSitemap (some "<loc>a</loc><loc>b</loc><lastmod>2024-01-01</lastmod>") 0).score = 100 ∧
    sitemapScoreSpec "<loc>a</loc><loc>b</loc><lastmod>2024-01-01</lastmod>" = 75 ∧
    (auditSitemap (some "<loc>a</loc><loc>b</loc><lastmod>2024-01-01</lastmod>") 0).score ≠
      sitemapScoreSpec "<loc>a</loc><loc>b</loc><lastmod>2024-01-01</lastmod>" ∧
    (auditSitemap (some "") 0).score = 0 ∧
    (auditSitemap (some "") 0).status = Status.fail := by
  have h1 : countOccur "<loc>a</loc><loc>b</loc><lastmod>2024-01-01</lastmod>" "<loc>" = 2 := by
    decide
  have h2 : strIncludes "<loc>a</loc><loc>b</loc><lastmod>2024-01-01</lastmod>" "<lastmod>" = true := by
    decide
  have h3 : countOccur "<loc>a</loc><loc>b</loc><lastmod>2024-01-01</lastmod>" "<lastmod>" = 1 := by
    decide
  have ha : (auditSitemap (some "<loc>a</loc><loc>b</loc><lastmod>2024-01-01</lastmod>") 0).score = 100 := by
    rw [auditSitemap, if_neg (by decide)]
    simp only [Option.getD_some]
    simp only [h1, h2]
    norm_num
  have hb : sitemapScoreSpec "<loc>a</loc><loc>b</loc><lastmod>2024-01-01</lastmod>" = 75 := by
    rw [sitemapScoreSpec, h1, h3]
    norm_num
  exact ⟨ha, hb, by rw [ha, hb]; norm_num, rfl, rfl⟩

/-- C7 (amended): the sitemap evaluator scores 0/fail when sitemap.xml is
absent or its text is empty (the JS falsiness check treats the empty
string like a missing file); for every present nonempty sitemap text,
score = 50 for existing, +25 if it contains at least one URL entry, and
+25 if the text contains at least one last-modified tag anywhere — not
only when every entry carries one; in particular one `loc` entry without
`lastmod` scores exactly 75 and adding a `lastmod` raises it to exactly
100. -/
theorem geoAuditC7 (c : String) (pc : ℕ) (hc : c ≠ "") :
    ((auditSitemap none pc).score = 0 ∧ (auditSitemap none pc).status = Status.fail) ∧
    ((auditSitemap (some "") pc).score = 0 ∧ (auditSitemap (some "") pc).status = Status.fail) ∧
    ((auditSitemap (some c) pc).score =
      50 + (if countOccur c "<loc>" > 0 then (25 : ℚ) else 0) +
        (if strIncludes c "<lastmod>" then (25 : ℚ) else 0)) ∧
    (auditSitemap (some "<loc>https://example.com/</loc>") pc).score = 75 ∧
    (auditSitemap (some "<loc>https://example.com/</loc><lastmod>2025-01-01</lastmod>") pc).score = 100 := by
  refine ⟨⟨rfl, rfl⟩, ⟨rfl, rfl⟩, ?_, ?_, ?_⟩
  · rw [auditSitemap, if_neg (not_guard_of_ne_empty hc)]
    simp only [Option.getD_some]
  · have h1 : countOccur "<loc>https://example.com/</loc>" "<loc>" = 1 := by decide
    have h2 : strIncludes "<loc>https://example.com/</loc>" "<lastmod>" = false := by decide
    rw [auditSitemap, if_neg (by decide)]
    simp only [Option.getD_some]
    simp only [h1, h2]
    norm_num
  · have h1 : countOccur "<loc>https://example.com/</loc><lastmod>2025-01-01</lastmod>" "<loc>" = 1 := by
      decide
    have h2 : strIncludes "<loc>https://example.com/</loc><lastmod>2025-01-01</lastmod>" "<lastmod>" = true := by
      decide
    rw [auditSitemap, if_neg (by decide)]
    simp only [Option.getD_some]
    simp only [h1, h2]
    norm_num

theorem geoAuditC7_witness :
    ("<loc>x</loc>" : String) ≠ "" ∧
    (((auditSitemap none 0).score = 0 ∧ (auditSitemap none 0).status = Status.fail) ∧
    ((auditSitemap (some "") 0).score = 0 ∧ (auditSitemap (some "") 0).status = Status.fail) ∧
    ((auditSitemap (some "<loc>x</loc>") 0).score =
      50 + (if countOccur "<loc>x</loc>" "<loc>" > 0 then (25 : ℚ) else 0) +
        (if strIncludes "<loc>x</loc>" "<lastmod>" then (25 : ℚ) else 0)) ∧
    (auditSitemap (some "<loc>https://example.com/</loc>") 0).score = 75 ∧
    (auditSitemap (some "<loc>https://example.com/</loc><lastmod>2025-01-01</lastmod>") 0).score = 100) :=
  ⟨by decide, geoAuditC7 "<loc>x</loc>" 0 (by decide)⟩

theorem geoAuditC8_counterexample :
    (auditServerRendering emptyCrawl).status = Status.fail ∧
    (auditServerRendering emptyCrawl).status ≠ Status.na ∧
    (auditServerRendering emptyCrawl).score = 0 := by
  have hst : (auditServerRendering emptyCrawl).status = Status.fail := by
    simp only [auditServerRendering, emptyCrawl]
    norm_num
  have hsc : (auditServerRendering emptyCrawl).score = 0 := by
    simp only [auditServerRendering, emptyCrawl]
    norm_num [jsRound_zero]
  exact ⟨hst, by rw [hst]; simp, hsc⟩

/-- C8 (amended): on a crawl result with zero pages every page-fraction
evaluator guards its division and returns score 0 (never NaN); content
freshness and content structure/depth report `not_applicable`, while
server rendering, meta descriptions, heading hierarchy, and Open Graph
report `fail`. -/
theorem geoAuditC8 (cr : SiteCrawlResult) (hp : cr.pages = []) (now : ℤ)
    (parseDate : String → Option ℤ) :
    ((auditServerRendering cr).score = 0 ∧ (auditServerRendering cr).status = Status.fail) ∧
    ((auditMetaDescriptions cr).score = 0 ∧ (auditMetaDescriptions cr).status = Status.fail) ∧
    ((auditHeadingHierarchy cr).score = 0 ∧ (auditHeadingHierarchy cr).status = Status.fail) ∧
    ((auditOpenGraph cr).score = 0 ∧ (auditOpenGraph cr).status = Status.fail) ∧
    ((auditContentFreshness now parseDate cr).score = 0 ∧
      (auditContentFreshness now parseDate cr).status = Status.na) ∧
    ((auditContentDepth cr).score = 0 ∧ (auditContentDepth cr).status = Status.na) := by
  refine ⟨⟨?_, ?_⟩, ⟨?_, ?_⟩, ⟨?_, ?_⟩, ⟨?_, ?_⟩, ⟨?_, ?_⟩, ⟨?_, ?_⟩⟩
  · simp only [auditServerRendering, hp]; norm_num [jsRound_zero]
  · simp only [auditServerRendering, hp]; norm_num
  · simp only [auditMetaDescriptions, hp]; norm_num [jsRound_zero]
  · simp only [auditMetaDescriptions, hp]; norm_num
  · simp only [auditHeadingHierarchy, hp]; norm_num [jsRound_zero]
  · simp only [auditHeadingHierarchy, hp]; norm_num
  · simp only [auditOpenGraph, hp]; norm_num [jsRound_zero]
  · simp only [auditOpenGraph, hp]; norm_num
  · simp only [auditContentFreshness, hp]; norm_num
  · simp only [auditContentFreshness, hp]; norm_num
  · simp only [auditContentDepth, hp]; norm_num
  · simp only [auditContentDepth, hp]; norm_num

theorem geoAuditC8_witness :
    emptyCrawl.pages = [] ∧
    (((auditServerRendering emptyCrawl).score = 0 ∧
      (auditServerRendering emptyCrawl).status = Status.fail) ∧
    ((auditMetaDescriptions emptyCrawl).score = 0 ∧
      (auditMetaDescriptions emptyCrawl).status = Status.fail) ∧
    ((auditHeadingHierarchy emptyCrawl).score = 0 ∧
      (auditHeadingHierarchy emptyCrawl).status = Status.fail) ∧
    ((auditOpenGraph emptyCrawl).score = 0 ∧
      (auditOpenGraph emptyCrawl).status = Status.fail) ∧
    ((auditContentFreshness 0 (fun _ => none) emptyCrawl).score = 0 ∧
      (auditContentFreshness 0 (fun _ => none) emptyCrawl).status = Status.na) ∧
    ((auditContentDepth emptyCrawl).score = 0 ∧
      (auditContentDepth emptyCrawl).status = Status.na)) :=
  ⟨rfl, geoAuditC8 emptyCrawl rfl 0 (fun _ => none)⟩

end GeoScraper
